import Mathlib

/-!
Verification of the route discovery and ranking engine of the affiliate map
site (`script.js`, class `FlightPathVisualizer`).

The engine works over `flightData`: a list of airport-pair records loaded
from a JSONL file.  Each record names two airports (`airport1_*` /
`airport2_*` fields), one flight duration in minutes, and a list of airline
service descriptions.  Numeric values are modelled by rational numbers.

Every definition below mirrors the corresponding method of the source;
names follow the source.  JavaScript `Set`s and `Map`s are modelled as
insertion-ordered duplicate-free lists, which matches the iteration order
the source relies on.
-/

unseal Rat.add Rat.mul Rat.inv

namespace AffiliateMap

/-- JavaScript `String.prototype.split(', ')` on the underlying character
list: successive non-overlapping occurrences of `", "`, scanned left to
right, separate the parts. -/
def splitCommaSpaceList : List Char → List (List Char)
  | [] => [[]]
  | ',' :: ' ' :: rest => [] :: splitCommaSpaceList rest
  | c :: rest =>
    match splitCommaSpaceList rest with
    | part :: parts => (c :: part) :: parts
    | [] => [[c]]

/-- JavaScript `key.split(', ')`. -/
def splitCommaSpace (s : String) : List String :=
  (splitCommaSpaceList s.data).map String.mk

/-- One airline service entry of an airport-pair record
(`airline_name`, `days_per_week`, `service_start_month`, `service_end_month`). -/
structure Airline where
  airline_name : String
  days_per_week : ℚ
  service_start_month : String
  service_end_month : String
deriving DecidableEq

/-- One record of `flightData` (one line of `flightsonetoone.jsonl`). -/
structure AirportPair where
  airport1_city_name : String
  airport1_country : String
  airport1_iata : String
  airport1_coordinates : String
  airport2_city_name : String
  airport2_country : String
  airport2_iata : String
  airport2_coordinates : String
  flight_duration_minutes : ℚ
  airlines : List Airline
deriving DecidableEq

/-- `this.flightData`: the loaded list of airport-pair records. -/
abbrev FlightData := List AirportPair

/-- The `"City, Country"` display key of a record's `airport1` side,
as built throughout the source by template literals. -/
def airport1Key (p : AirportPair) : String :=
  p.airport1_city_name ++ ", " ++ p.airport1_country

/-- The `"City, Country"` display key of a record's `airport2` side. -/
def airport2Key (p : AirportPair) : String :=
  p.airport2_city_name ++ ", " ++ p.airport2_country

/-- `iataToDisplayName(iata)`: scan `flightData` in order; the first record
whose `airport1_iata` matches yields its airport1 key, else whose
`airport2_iata` matches yields its airport2 key; fall back to the input. -/
def iataToDisplayName (fd : FlightData) (iata : String) : String :=
  match fd with
  | [] => iata
  | p :: rest =>
    if p.airport1_iata = iata then airport1Key p
    else if p.airport2_iata = iata then airport2Key p
    else iataToDisplayName rest iata

/-- Inner scan of `displayNameToIata`: find the first record one of whose
sides has the given city and country, returning that side's IATA code. -/
def displayNameToIataAux (city country : String) : FlightData → Option String
  | [] => none
  | p :: rest =>
    if p.airport1_city_name = city ∧ p.airport1_country = country then
      some p.airport1_iata
    else if p.airport2_city_name = city ∧ p.airport2_country = country then
      some p.airport2_iata
    else displayNameToIataAux city country rest

/-- `displayNameToIata(displayName)`: split on `", "` into city and country
(a key with no `", "` matches no record, since every stored country is a
proper string) and scan `flightData`; fall back to the input when nothing
matches. -/
def displayNameToIata (fd : FlightData) (displayName : String) : String :=
  match splitCommaSpace displayName with
  | city :: country :: _ =>
    match displayNameToIataAux city country fd with
    | some iata => iata
    | none => displayName
  | _ => displayName

/-- The test `airportKey.length === 3 && airportKey.match(/^[A-Z]{3}$/)` of
`getIataFromAirportKey`. -/
def isIataCode (s : String) : Bool :=
  s.data.length == 3 && s.data.all (fun c => decide ('A' ≤ c) && decide (c ≤ 'Z'))

/-- `getIataFromAirportKey(airportKey)`: three capital letters pass through;
anything else goes through `displayNameToIata`. -/
def getIataFromAirportKey (fd : FlightData) (airportKey : String) : String :=
  if isIataCode airportKey then airportKey else displayNameToIata fd airportKey

/-- The test `key.includes(', ')` of `normalizeAirportKey`. -/
def containsCommaSpace (s : String) : Bool :=
  (splitCommaSpace s).length > 1

/-- `normalizeAirportKey(key)`: keys already in `"City, Country"` form pass
through; otherwise the key is treated as an IATA code and converted. -/
def normalizeAirportKey (fd : FlightData) (key : String) : String :=
  if containsCommaSpace key then key else iataToDisplayName fd key

/-- `Set.prototype.add` on an insertion-ordered duplicate-free list. -/
def setAdd (l : List String) (x : String) : List String :=
  if x ∈ l then l else l ++ [x]

/-- `getDirectServicesFromAirport(airportKey)`: for each record, if its
airport1 key equals the normalized target add the airport2 key, else if its
airport2 key equals the target add the airport1 key. -/
def getDirectServicesFromAirport (fd : FlightData) (airportKey : String) : List String :=
  let normalizedKey := normalizeAirportKey fd airportKey
  fd.foldl
    (fun services p =>
      if airport1Key p = normalizedKey then setAdd services (airport2Key p)
      else if airport2Key p = normalizedKey then setAdd services (airport1Key p)
      else services)
    []

/-- `getAirportsServingOrigin(originKey)`: the source repeats the exact loop
of `getDirectServicesFromAirport` (its comment notes the relationship is
bidirectional in the one-to-one structure). -/
def getAirportsServingOrigin (fd : FlightData) (originKey : String) : List String :=
  let normalizedKey := normalizeAirportKey fd originKey
  fd.foldl
    (fun services p =>
      if airport1Key p = normalizedKey then setAdd services (airport2Key p)
      else if airport2Key p = normalizedKey then setAdd services (airport1Key p)
      else services)
    []

/-- `combineAirportSets(set1, set2)`: a fresh `Set` receiving all members of
`set1` then all members of `set2`. -/
def combineAirportSets (set1 set2 : List String) : List String :=
  set2.foldl setAdd (set1.foldl setAdd [])

/-- `findIntersection(set1, set2)`: members of `set1` also present in
`set2`, in `set1`'s iteration order. -/
def findIntersection (set1 set2 : List String) : List String :=
  set1.foldl (fun inter a => if a ∈ set2 then setAdd inter a else inter) []

/-- The matching predicate of `findDirectFlight`'s `this.flightData.find`:
the record pairs the two normalized keys, in either stored orientation. -/
def matchesPair (nOrig nDest : String) (p : AirportPair) : Bool :=
  decide ((airport1Key p = nOrig ∧ airport2Key p = nDest) ∨
          (airport1Key p = nDest ∧ airport2Key p = nOrig))

/-- The flight-service object `findDirectFlight` returns: origin metadata
from whichever side of the record matches the requested origin, duration and
airlines taken from the record unchanged. -/
structure FlightService where
  origin_city_name : String
  origin_country : String
  origin_airport_iata : String
  origin_airport_coordinates : String
  flight_duration_minutes : ℚ
  airlines : List Airline
deriving DecidableEq

/-- Construction of the returned object of `findDirectFlight` from the found
record: `isForward` tests whether the record's airport1 key equals the
normalized origin key. -/
def mkFlightService (nOrig : String) (p : AirportPair) : FlightService :=
  let isForward := airport1Key p = nOrig
  { origin_city_name := if isForward then p.airport1_city_name else p.airport2_city_name
    origin_country := if isForward then p.airport1_country else p.airport2_country
    origin_airport_iata := if isForward then p.airport1_iata else p.airport2_iata
    origin_airport_coordinates := if isForward then p.airport1_coordinates else p.airport2_coordinates
    flight_duration_minutes := p.flight_duration_minutes
    airlines := p.airlines }

/-- `findDirectFlight(originKey, destinationKey)`: normalize both keys, take
the first record of `flightData` pairing them in either orientation, and
orient its metadata for the requested direction; `null` when none matches. -/
def findDirectFlight (fd : FlightData) (originKey destinationKey : String) : Option FlightService :=
  let nOrig := normalizeAirportKey fd originKey
  let nDest := normalizeAirportKey fd destinationKey
  (fd.find? (matchesPair nOrig nDest)).map (mkFlightService nOrig)

/-- `getFlightDetails(originKey, destinationKey)`: delegates to
`findDirectFlight`. -/
def getFlightDetails (fd : FlightData) (originKey destinationKey : String) : Option FlightService :=
  findDirectFlight fd originKey destinationKey

/-- `findBidirectionalFlight(originKey, destinationKey)`: delegates to
`findDirectFlight` (the source comment notes bidirectional logic is already
handled there). -/
def findBidirectionalFlight (fd : FlightData) (originKey destinationKey : String) : Option FlightService :=
  findDirectFlight fd originKey destinationKey

/-- A fixed destination entry of `this.destinations`
(name, country, IATA code, coordinates).  Coordinates are carried as the
already-joined string the mock destination object stores; no claim inspects
them. -/
structure Destination where
  name : String
  country : String
  iata : String
  coords : String
deriving DecidableEq

/-- The `"City, Country"` key of a destination, as built by
`destination.name + ", " + destination.country` at every use site. -/
def destinationKey (d : Destination) : String :=
  d.name ++ ", " ++ d.country

/-- The mock destination data object built at the top of
`findRoutesForDestination`. -/
structure DestData where
  destination_city_name : String
  destination_country : String
  destination_airport_iata : String
  destination_airport_coordinates : String
deriving DecidableEq

/-- `route.type`: `'direct'` or `'connecting'`. -/
inductive RouteType where
  | direct : RouteType
  | connecting : RouteType
deriving DecidableEq

/-- A route candidate as assembled by `findRoutesForDestination`.  `via` and
`transferAirport` are `none` on direct routes; `volumeFactor` and
`efficiencyRatio` are written by the scoring pass (they default to `0`
before that pass, standing for the absent JavaScript property). -/
structure Route where
  type : RouteType
  duration : ℚ
  segments : List FlightService
  destination : DestData
  via : Option String
  transferAirport : Option String
  volumeFactor : ℚ := 0
  efficiencyRatio : ℚ := 0
deriving DecidableEq

/-- `calculateSegmentVolume(segment)`: sum over the airlines of
months-per-year (12 for a Jan–Dec season, the fixed approximation 6
otherwise) times days-per-week, normalized by 84. -/
def calculateSegmentVolume (segment : FlightService) : ℚ :=
  (segment.airlines.foldl
    (fun totalVolume airline =>
      let monthsPerYear : ℚ :=
        if airline.service_start_month = "Jan" ∧ airline.service_end_month = "Dec" then 12
        else 6
      totalVolume + monthsPerYear * airline.days_per_week)
    0) / 84

/-- `calculateRouteVolume(route)`: segment volume for a direct route;
duration-weighted average of the two legs' segment volumes for a connecting
route.  Routes built by the enumerator always carry one segment when direct
and two when connecting; the fallback arms totalize the missing-segment
cases the source would turn into `NaN`. -/
def calculateRouteVolume (route : Route) : ℚ :=
  if route.type = RouteType.direct then
    match route.segments with
    | segment :: _ => calculateSegmentVolume segment
    | [] => 0
  else
    match route.segments with
    | segment1 :: segment2 :: _ =>
      let volume1 := calculateSegmentVolume segment1
      let volume2 := calculateSegmentVolume segment2
      let duration1 := segment1.flight_duration_minutes
      let duration2 := segment2.flight_duration_minutes
      let totalDuration := duration1 + duration2
      let weight1 := duration1 / totalDuration
      let weight2 := duration2 / totalDuration
      weight1 * volume1 + weight2 * volume2
    | _ => 0

/-- The scoring pass of `findRoutesForDestination`:
`route.volumeFactor = max(calculateRouteVolume(route), 0.1)` and
`route.efficiencyRatio = route.duration / route.volumeFactor`. -/
def scoreRoute (route : Route) : Route :=
  let overallVolumeFactor := calculateRouteVolume route
  let volumeFactor := max overallVolumeFactor (1 / 10 : ℚ)
  { route with
    volumeFactor := volumeFactor
    efficiencyRatio := route.duration / volumeFactor }

/-- The body of the `transferAirports.forEach` loop of
`findRoutesForDestination`: skip a transfer key equal to the origin or the
destination key, resolve both legs, and build the connecting route when both
legs exist (`via` is `city (iata)` of the transfer key). -/
def connectingRouteFor (fd : FlightData) (originKey destKey : String) (destData : DestData)
    (transferAirportKey : String) : Option Route :=
  if transferAirportKey = originKey ∨ transferAirportKey = destKey then none
  else
    match getFlightDetails fd originKey transferAirportKey,
          getFlightDetails fd transferAirportKey destKey with
    | some firstLegDetails, some secondLegDetails =>
      let transferCity := (splitCommaSpace transferAirportKey).headD transferAirportKey
      let transferIata := getIataFromAirportKey fd transferAirportKey
      let totalDuration :=
        firstLegDetails.flight_duration_minutes + secondLegDetails.flight_duration_minutes
      some
        { type := RouteType.connecting
          duration := totalDuration
          segments := [firstLegDetails, secondLegDetails]
          destination := destData
          via := some (transferCity ++ " (" ++ transferIata ++ ")")
          transferAirport := some transferAirportKey }
    | _, _ => none

/-- Steps 1–3 (resp. 4–6) of `findRoutesForDestination`: the two service
scans for a key, combined. -/
def servicesCombined (fd : FlightData) (key : String) : List String :=
  combineAirportSets (getDirectServicesFromAirport fd key) (getAirportsServingOrigin fd key)

/-- The relation the connecting-route sort uses:
`(a, b) => a.efficiencyRatio - b.efficiencyRatio` ascending. -/
def routeLE (a b : Route) : Prop :=
  a.efficiencyRatio ≤ b.efficiencyRatio

instance : DecidableRel routeLE :=
  fun a b => inferInstanceAs (Decidable (a.efficiencyRatio ≤ b.efficiencyRatio))

instance : IsTotal Route routeLE :=
  ⟨fun a b => le_total a.efficiencyRatio b.efficiencyRatio⟩

instance : IsTrans Route routeLE :=
  ⟨fun _ _ _ hab hbc => le_trans hab hbc⟩

/-- The mock destination data object built at the top of
`findRoutesForDestination` from a fixed destination. -/
def destDataOf (destination : Destination) : DestData :=
  { destination_city_name := destination.name
    destination_country := destination.country
    destination_airport_iata := destination.iata
    destination_airport_coordinates := destination.coords }

/-- The direct-flight step of `findRoutesForDestination`: when
`findDirectFlight` succeeds, one `direct` route is pushed first. -/
def directPartFor (fd : FlightData) (originKey destKey : String) (destData : DestData) :
    List Route :=
  match findDirectFlight fd originKey destKey with
  | some directFlight =>
    [{ type := RouteType.direct
       duration := directFlight.flight_duration_minutes
       segments := [directFlight]
       destination := destData
       via := none
       transferAirport := none }]
  | none => []

/-- The ranking tail of `findRoutesForDestination`: direct routes first,
connecting routes sorted ascending by efficiency ratio, truncated to 30. -/
def rankRoutes (scored : List Route) : List Route :=
  let directFlights := scored.filter (fun r => decide (r.type = RouteType.direct))
  let connectingFlights :=
    List.insertionSort routeLE (scored.filter (fun r => decide (r.type = RouteType.connecting)))
  (directFlights ++ connectingFlights).take 30

/-- `findRoutesForDestination(originKey, destination)`: gather the direct
route (if any) and one connecting route per transfer airport in the
intersection of the two combined service sets, score every route, sort the
connecting routes ascending by efficiency ratio, place direct routes first,
and truncate to 30 entries. -/
def findRoutesForDestination (fd : FlightData) (originKey : String) (destination : Destination) :
    List Route :=
  let destData := destDataOf destination
  let destKey := destinationKey destination
  let transferAirports :=
    findIntersection (servicesCombined fd originKey) (servicesCombined fd destKey)
  let routes :=
    directPartFor fd originKey destKey destData ++
      transferAirports.filterMap (connectingRouteFor fd originKey destKey destData)
  rankRoutes (routes.map scoreRoute)

/-! ### Concrete datasets used by scenario claims, counterexamples and witnesses -/

/-- A one-airline Jan–Dec service running the given days per week. -/
def yearRound (name : String) (days : ℚ) : Airline :=
  { airline_name := name
    days_per_week := days
    service_start_month := "Jan"
    service_end_month := "Dec" }

/-- A record pairing two airports, each given as (city, country, iata,
coordinates), with a duration and airline list. -/
def mkPair (a1 a2 : String × String × String × String) (dur : ℚ) (als : List Airline) :
    AirportPair :=
  { airport1_city_name := a1.1
    airport1_country := a1.2.1
    airport1_iata := a1.2.2.1
    airport1_coordinates := a1.2.2.2
    airport2_city_name := a2.1
    airport2_country := a2.2.1
    airport2_iata := a2.2.2.1
    airport2_coordinates := a2.2.2.2
    flight_duration_minutes := dur
    airlines := als }

def apAlpha : String × String × String × String := ("Alpha", "Aland", "AAA", "1,1")
def apBeta : String × String × String × String := ("Beta", "Bland", "BBB", "2,2")
def apCeta : String × String × String × String := ("Ceta", "Cland", "CCC", "3,3")

/-- The Alpha→Beta record of the two-leg scenario (90 min, one year-round
seven-days-a-week airline). -/
def pairAB : AirportPair := mkPair apAlpha apBeta 90 [yearRound "AirOne" 7]

/-- The Beta→Ceta record of the two-leg scenario (120 min, one year-round
seven-days-a-week airline). -/
def pairBC : AirportPair := mkPair apBeta apCeta 120 [yearRound "AirTwo" 7]

/-- Dataset of the two-leg scenario: Alpha–Beta 90 min and Beta–Ceta
120 min, each with one year-round seven-days-a-week airline, no
Alpha–Ceta record. -/
def fdScenario : FlightData := [pairAB, pairBC]

def destCeta : Destination :=
  { name := "Ceta", country := "Cland", iata := "CCC", coords := "3,3" }

/-- First duplicate raw entry: Alpha→Beta at 80 minutes, airline AirX. -/
def dupFirst : AirportPair := mkPair apAlpha apBeta 80 [yearRound "AirX" 5]

/-- Second duplicate raw entry: Beta→Alpha at 100 minutes, airline AirY. -/
def dupSecond : AirportPair := mkPair apBeta apAlpha 100 [yearRound "AirY" 7]

/-- Dataset with duplicate raw entries for one pair in opposite
orientations. -/
def fdDup : FlightData := [dupFirst, dupSecond]

def apOri : String × String × String × String := ("Ori", "Oland", "OOO", "5,5")
def apDes : String × String × String × String := ("Des", "Dland", "DDD", "6,6")
def apParisFr : String × String × String × String := ("Paris", "France", "PPP", "7,7")
def apParisEs : String × String × String × String := ("Paris", "Spain", "PPP", "8,8")

/-- Dataset with two distinct transfer airports (`Paris, France` and
`Paris, Spain`, both with IATA `PPP`) between `Ori, Oland` and
`Des, Dland`, both yielding a 100-minute connection labelled
`Paris (PPP)`. -/
def fdTwin : FlightData :=
  [mkPair apOri apParisFr 50 [yearRound "A1" 7],
   mkPair apParisFr apDes 50 [yearRound "A2" 7],
   mkPair apOri apParisEs 60 [yearRound "A3" 7],
   mkPair apParisEs apDes 40 [yearRound "A4" 7]]

def destDes : Destination :=
  { name := "Des", country := "Dland", iata := "DDD", coords := "6,6" }

/-- A placeholder route used only as the default of `List.headD` in
closed instantiations. -/
def dummyRoute : Route :=
  { type := RouteType.direct
    duration := 0
    segments := []
    destination := { destination_city_name := ""
                     destination_country := ""
                     destination_airport_iata := ""
                     destination_airport_coordinates := "" }
    via := none
    transferAirport := none }

/-! ### Set-model lemmas -/

theorem mem_setAdd {l : List String} {x y : String} :
    y ∈ setAdd l x ↔ y ∈ l ∨ y = x := by
  unfold setAdd
  split
  · next h =>
    constructor
    · exact Or.inl
    · rintro (hy | rfl)
      · exact hy
      · exact h
  · simp

theorem nodup_setAdd {l : List String} {x : String} (h : l.Nodup) :
    (setAdd l x).Nodup := by
  unfold setAdd
  split
  · exact h
  · next hx =>
    rw [List.nodup_append]
    refine ⟨h, List.nodup_singleton x, ?_⟩
    intro y hy hx'
    rw [List.mem_singleton] at hx'
    exact hx (hx' ▸ hy)

theorem foldl_setAdd_mem {l acc : List String} {y : String} :
    y ∈ l.foldl setAdd acc ↔ y ∈ acc ∨ y ∈ l := by
  induction l generalizing acc with
  | nil => simp
  | cons x l ih =>
    simp only [List.foldl_cons, ih, mem_setAdd, List.mem_cons]
    tauto

theorem foldl_setAdd_nodup {l acc : List String} (h : acc.Nodup) :
    (l.foldl setAdd acc).Nodup := by
  induction l generalizing acc with
  | nil => exact h
  | cons x l ih => exact ih (nodup_setAdd h)

theorem foldl_setAdd_of_subset {l acc : List String} (h : ∀ x ∈ l, x ∈ acc) :
    l.foldl setAdd acc = acc := by
  induction l generalizing acc with
  | nil => rfl
  | cons x l ih =>
    have hx : setAdd acc x = acc := if_pos (h x (List.mem_cons_self x l))
    simp only [List.foldl_cons, hx]
    exact ih fun y hy => h y (List.mem_cons_of_mem x hy)

theorem foldl_setAdd_of_disjoint {l acc : List String} (hl : l.Nodup)
    (h : ∀ x ∈ l, x ∉ acc) : l.foldl setAdd acc = acc ++ l := by
  induction l generalizing acc with
  | nil => simp
  | cons x l ih =>
    have hx : setAdd acc x = acc ++ [x] := if_neg (h x (List.mem_cons_self x l))
    simp only [List.foldl_cons, hx]
    rw [ih hl.of_cons]
    · simp
    · intro y hy
      simp only [List.mem_append, List.mem_singleton]
      rintro (hacc | rfl)
      · exact h y (List.mem_cons_of_mem x hy) hacc
      · exact (List.nodup_cons.mp hl).1 hy

theorem foldl_setAdd_nil {l : List String} (h : l.Nodup) :
    l.foldl setAdd [] = l := by
  simpa using foldl_setAdd_of_disjoint h (by simp)

theorem combineAirportSets_self {l : List String} (h : l.Nodup) :
    combineAirportSets l l = l := by
  unfold combineAirportSets
  rw [foldl_setAdd_nil h]
  exact foldl_setAdd_of_subset fun x hx => hx

theorem mem_findIntersection {s1 s2 : List String} {y : String} :
    y ∈ findIntersection s1 s2 ↔ y ∈ s1 ∧ y ∈ s2 := by
  have aux : ∀ (l acc : List String),
      y ∈ l.foldl (fun inter a => if a ∈ s2 then setAdd inter a else inter) acc ↔
        y ∈ acc ∨ (y ∈ l ∧ y ∈ s2) := by
    intro l
    induction l with
    | nil => simp
    | cons x l ih =>
      intro acc
      simp only [List.foldl_cons, List.mem_cons]
      by_cases hx : x ∈ s2
      · rw [if_pos hx, ih, mem_setAdd]
        constructor
        · rintro ((h | rfl) | h)
          · exact Or.inl h
          · exact Or.inr ⟨Or.inl rfl, hx⟩
          · exact Or.inr ⟨Or.inr h.1, h.2⟩
        · rintro (h | ⟨rfl | h, h2⟩)
          · exact Or.inl (Or.inl h)
          · exact Or.inl (Or.inr rfl)
          · exact Or.inr ⟨h, h2⟩
      · rw [if_neg hx, ih]
        constructor
        · rintro (h | h)
          · exact Or.inl h
          · exact Or.inr ⟨Or.inr h.1, h.2⟩
        · rintro (h | ⟨rfl | h, h2⟩)
          · exact Or.inl h
          · exact absurd h2 hx
          · exact Or.inr ⟨h, h2⟩
  simpa using aux s1 []

theorem findIntersection_nodup {s1 s2 : List String} :
    (findIntersection s1 s2).Nodup := by
  have aux : ∀ (l acc : List String), acc.Nodup →
      (l.foldl (fun inter a => if a ∈ s2 then setAdd inter a else inter) acc).Nodup := by
    intro l
    induction l with
    | nil => exact fun acc h => h
    | cons x l ih =>
      intro acc h
      simp only [List.foldl_cons]
      by_cases hx : x ∈ s2
      · rw [if_pos hx]; exact ih _ (nodup_setAdd h)
      · rw [if_neg hx]; exact ih _ h
  exact aux s1 [] List.nodup_nil

/-! ### First-match lemmas -/

theorem find?_congr_pred {α : Type} {p q : α → Bool} (h : ∀ x, p x = q x) :
    ∀ l : List α, l.find? p = l.find? q := by
  intro l
  induction l with
  | nil => rfl
  | cons x l ih =>
    simp only [List.find?_cons, h x]
    cases q x with
    | true => rfl
    | false => exact ih

theorem find?_unique {α : Type} {p : α → Bool} {l : List α} {a : α}
    (ha : a ∈ l) (hp : p a = true) (huniq : ∀ b ∈ l, p b = true → b = a) :
    l.find? p = some a := by
  induction l with
  | nil => cases ha
  | cons x l ih =>
    rw [List.find?_cons]
    by_cases hx : p x = true
    · rw [hx]
      exact congrArg some (huniq x (List.mem_cons_self x l) hx)
    · rw [Bool.not_eq_true] at hx
      rw [hx]
      rcases List.mem_cons.mp ha with rfl | ha'
      · rw [hp] at hx; cases hx
      · exact ih ha' fun b hb => huniq b (List.mem_cons_of_mem x hb)

/-! ### Service-set scan lemmas -/

theorem services_foldl_mem {nk : String} :
    ∀ (l : FlightData) (acc : List String) (y : String),
      (y ∈ l.foldl
        (fun services p =>
          if airport1Key p = nk then setAdd services (airport2Key p)
          else if airport2Key p = nk then setAdd services (airport1Key p)
          else services)
        acc) ↔
      y ∈ acc ∨ ∃ p ∈ l, (airport1Key p = nk ∧ airport2Key p = y) ∨
        (airport2Key p = nk ∧ airport1Key p = y) := by
  intro l
  induction l with
  | nil => simp
  | cons q l ih =>
    intro acc y
    simp only [List.foldl_cons, List.mem_cons, ih]
    by_cases h1 : airport1Key q = nk
    · rw [if_pos h1, mem_setAdd]
      constructor
      · rintro ((hy | rfl) | ⟨p, hp, hpy⟩)
        · exact Or.inl hy
        · exact Or.inr ⟨q, Or.inl rfl, Or.inl ⟨h1, rfl⟩⟩
        · exact Or.inr ⟨p, Or.inr hp, hpy⟩
      · rintro (hy | ⟨p, rfl | hp, hpy⟩)
        · exact Or.inl (Or.inl hy)
        · rcases hpy with ⟨-, rfl⟩ | ⟨h2, rfl⟩
          · exact Or.inl (Or.inr rfl)
          · exact Or.inl (Or.inr (h1.trans h2.symm))
        · exact Or.inr ⟨p, hp, hpy⟩
    · rw [if_neg h1]
      by_cases h2 : airport2Key q = nk
      · rw [if_pos h2, mem_setAdd]
        constructor
        · rintro ((hy | rfl) | ⟨p, hp, hpy⟩)
          · exact Or.inl hy
          · exact Or.inr ⟨q, Or.inl rfl, Or.inr ⟨h2, rfl⟩⟩
          · exact Or.inr ⟨p, Or.inr hp, hpy⟩
        · rintro (hy | ⟨p, rfl | hp, hpy⟩)
          · exact Or.inl (Or.inl hy)
          · rcases hpy with ⟨hk1, rfl⟩ | ⟨-, rfl⟩
            · exact absurd hk1 h1
            · exact Or.inl (Or.inr rfl)
          · exact Or.inr ⟨p, hp, hpy⟩
      · rw [if_neg h2]
        constructor
        · rintro (hy | ⟨p, hp, hpy⟩)
          · exact Or.inl hy
          · exact Or.inr ⟨p, Or.inr hp, hpy⟩
        · rintro (hy | ⟨p, rfl | hp, hpy⟩)
          · exact Or.inl hy
          · rcases hpy with ⟨hk1, -⟩ | ⟨hk2, -⟩
            · exact absurd hk1 h1
            · exact absurd hk2 h2
          · exact Or.inr ⟨p, hp, hpy⟩

theorem mem_getDirectServicesFromAirport {fd : FlightData} {key y : String} :
    y ∈ getDirectServicesFromAirport fd key ↔
      ∃ p ∈ fd, (airport1Key p = normalizeAirportKey fd key ∧ airport2Key p = y) ∨
        (airport2Key p = normalizeAirportKey fd key ∧ airport1Key p = y) := by
  unfold getDirectServicesFromAirport
  simpa using services_foldl_mem fd [] y

theorem getDirectServicesFromAirport_nodup {fd : FlightData} {key : String} :
    (getDirectServicesFromAirport fd key).Nodup := by
  unfold getDirectServicesFromAirport
  have aux : ∀ (l : FlightData) (acc : List String), acc.Nodup →
      (l.foldl
        (fun services p =>
          if airport1Key p = normalizeAirportKey fd key then setAdd services (airport2Key p)
          else if airport2Key p = normalizeAirportKey fd key then setAdd services (airport1Key p)
          else services)
        acc).Nodup := by
    intro l
    induction l with
    | nil => exact fun acc h => h
    | cons q l ih =>
      intro acc h
      simp only [List.foldl_cons]
      by_cases h1 : airport1Key q = normalizeAirportKey fd key
      · rw [if_pos h1]; exact ih _ (nodup_setAdd h)
      · rw [if_neg h1]
        by_cases h2 : airport2Key q = normalizeAirportKey fd key
        · rw [if_pos h2]; exact ih _ (nodup_setAdd h)
        · rw [if_neg h2]; exact ih _ h
  exact aux fd [] List.nodup_nil

theorem services_foldl_of_unmatched {nk : String} {l : FlightData}
    (h : ∀ p ∈ l, airport1Key p ≠ nk ∧ airport2Key p ≠ nk) (acc : List String) :
    l.foldl
      (fun services p =>
        if airport1Key p = nk then setAdd services (airport2Key p)
        else if airport2Key p = nk then setAdd services (airport1Key p)
        else services)
      acc = acc := by
  induction l generalizing acc with
  | nil => rfl
  | cons q l ih =>
    have hq := h q (List.mem_cons_self q l)
    simp only [List.foldl_cons, if_neg hq.1, if_neg hq.2]
    exact ih (fun p hp => h p (List.mem_cons_of_mem q hp)) acc

/-! ### Reconciler lemmas -/

theorem matchesPair_symm (a b : String) (p : AirportPair) :
    matchesPair a b p = matchesPair b a p := by
  unfold matchesPair
  exact decide_eq_decide.mpr or_comm

theorem findDirectFlight_find_symm (fd : FlightData) (nA nB : String) :
    fd.find? (matchesPair nA nB) = fd.find? (matchesPair nB nA) :=
  find?_congr_pred (matchesPair_symm nA nB) fd

theorem mkFlightService_flight_duration_minutes (nO : String) (p : AirportPair) :
    (mkFlightService nO p).flight_duration_minutes = p.flight_duration_minutes := rfl

theorem mkFlightService_airlines (nO : String) (p : AirportPair) :
    (mkFlightService nO p).airlines = p.airlines := rfl

theorem mkFlightService_originKey {nO nD : String} {p : AirportPair}
    (h : matchesPair nO nD p = true) :
    (mkFlightService nO p).origin_city_name ++ ", " ++ (mkFlightService nO p).origin_country =
      nO := by
  unfold matchesPair at h
  rw [decide_eq_true_eq] at h
  unfold mkFlightService
  by_cases h1 : airport1Key p = nO
  · simp only [if_pos h1]
    exact h1
  · have h2 : airport2Key p = nO := by
      rcases h with ⟨hk1, -⟩ | ⟨-, hk2⟩
      · exact absurd hk1 h1
      · exact hk2
    simp only [if_neg h1]
    exact h2

/-! ### Route-pipeline lemmas -/

theorem scoreRoute_type (r : Route) : (scoreRoute r).type = r.type := rfl

theorem scoreRoute_transferAirport (r : Route) :
    (scoreRoute r).transferAirport = r.transferAirport := rfl

theorem directPartFor_type {fd : FlightData} {originKey destKey : String} {destData : DestData}
    {r : Route} (h : r ∈ directPartFor fd originKey destKey destData) :
    r.type = RouteType.direct := by
  unfold directPartFor at h
  rcases hf : findDirectFlight fd originKey destKey with - | f
  · rw [hf] at h; cases h
  · rw [hf, List.mem_singleton] at h
    rw [h]

theorem connectingRouteFor_some {fd : FlightData} {originKey destKey : String}
    {destData : DestData} {t : String} {r : Route}
    (h : connectingRouteFor fd originKey destKey destData t = some r) :
    r.type = RouteType.connecting ∧ r.transferAirport = some t ∧
      t ≠ originKey ∧ t ≠ destKey := by
  unfold connectingRouteFor at h
  by_cases hskip : t = originKey ∨ t = destKey
  · rw [if_pos hskip] at h; cases h
  · rw [if_neg hskip] at h
    push_neg at hskip
    rcases h1 : getFlightDetails fd originKey t with - | l1 <;> rw [h1] at h
    · cases h
    rcases h2 : getFlightDetails fd t destKey with - | l2 <;> rw [h2] at h
    · cases h
    cases h
    exact ⟨rfl, rfl, hskip.1, hskip.2⟩

theorem rankRoutes_length (scored : List Route) : (rankRoutes scored).length ≤ 30 := by
  unfold rankRoutes
  simp only [List.length_take]
  exact min_le_left 30 _

theorem mem_rankRoutes {scored : List Route} {r : Route} (h : r ∈ rankRoutes scored) :
    r ∈ scored := by
  unfold rankRoutes at h
  have h' := (List.take_sublist 30 _).mem h
  rcases List.mem_append.mp h' with hd | hc
  · exact (List.mem_filter.mp hd).1
  · exact (List.mem_filter.mp ((List.mem_insertionSort routeLE).mp hc)).1

theorem rankRoutes_connecting_type {scored : List Route} {r : Route}
    (hc : r ∈ List.insertionSort routeLE
      (scored.filter (fun r => decide (r.type = RouteType.connecting)))) :
    r.type = RouteType.connecting := by
  have := (List.mem_filter.mp ((List.mem_insertionSort routeLE).mp hc)).2
  exact of_decide_eq_true this

theorem rankRoutes_pairwise {scored : List Route} {S : Route → Route → Prop}
    (hdir : ∀ a b, a.type = RouteType.direct → S a b)
    (hconn : List.Pairwise S (List.insertionSort routeLE
      (scored.filter (fun r => decide (r.type = RouteType.connecting))))) :
    List.Pairwise S (rankRoutes scored) := by
  unfold rankRoutes
  refine List.Pairwise.sublist (List.take_sublist 30 _) ?_
  rw [List.pairwise_append]
  refine ⟨?_, hconn, ?_⟩
  · refine List.pairwise_of_forall_mem_list fun a ha b _ => ?_
    exact hdir a b (of_decide_eq_true (List.mem_filter.mp ha).2)
  · intro a ha b _
    exact hdir a b (of_decide_eq_true (List.mem_filter.mp ha).2)

/-! ### Claim theorems -/

/-- C10: `getDirectServicesFromAirport` and `getAirportsServingOrigin`
return exactly the same set of airport keys for every airport key over every
dataset, and `combineAirportSets` of the two equals either one alone: the
two functions are interchangeable implementations of the reachable-set
computation. -/
theorem C10_resolver_equivalence :
    ∀ (fd : FlightData) (key : String),
      getAirportsServingOrigin fd key = getDirectServicesFromAirport fd key ∧
      combineAirportSets (getDirectServicesFromAirport fd key) (getAirportsServingOrigin fd key) =
        getDirectServicesFromAirport fd key := by
  intro fd key
  have heq : getAirportsServingOrigin fd key = getDirectServicesFromAirport fd key := rfl
  refine ⟨heq, ?_⟩
  rw [heq]
  exact combineAirportSets_self getDirectServicesFromAirport_nodup

/-- C4: for a normalized airport key `X`, an airport `Y` is in the set
computed by `getDirectServicesFromAirport(X)` iff some record of the dataset
pairs `X` and `Y` (with `X` in either the airport1 or the airport2 role);
and when no record pairs an airport with itself, the set never contains `X`
itself. -/
theorem C4_reachable_set (fd : FlightData) (X : String)
    (hX : normalizeAirportKey fd X = X)
    (hs : ∀ p ∈ fd, airport1Key p ≠ airport2Key p) :
    (∀ Y, Y ∈ getDirectServicesFromAirport fd X ↔
      ∃ p ∈ fd, (airport1Key p = X ∧ airport2Key p = Y) ∨
        (airport2Key p = X ∧ airport1Key p = Y)) ∧
    X ∉ getDirectServicesFromAirport fd X := by
  have hmem : ∀ Y, Y ∈ getDirectServicesFromAirport fd X ↔
      ∃ p ∈ fd, (airport1Key p = X ∧ airport2Key p = Y) ∨
        (airport2Key p = X ∧ airport1Key p = Y) := by
    intro Y
    rw [mem_getDirectServicesFromAirport, hX]
  refine ⟨hmem, fun hself => ?_⟩
  rcases (hmem X).mp hself with ⟨p, hp, ⟨h1, h2⟩ | ⟨h2, h1⟩⟩
  · exact hs p hp (h1.trans h2.symm)
  · exact hs p hp (h1.trans h2.symm)

/-- Closed instance of `C4_reachable_set`: with the scenario dataset, the
hypotheses hold for the key `Alpha, Aland` and the computed reachable set
indeed omits the airport itself. -/
theorem C4_reachable_set_witness :
    normalizeAirportKey fdScenario "Alpha, Aland" = "Alpha, Aland" ∧
    (∀ p ∈ fdScenario, airport1Key p ≠ airport2Key p) ∧
    "Alpha, Aland" ∉ getDirectServicesFromAirport fdScenario "Alpha, Aland" :=
  ⟨by decide, by decide,
    (C4_reachable_set fdScenario "Alpha, Aland" (by decide) (by decide)).2⟩

/-- C9: an origin key whose normalized form matches no airport of the
dataset yields an empty route list (and, the functions being total, no
error): an unknown key is indistinguishable from a key with no routes. -/
theorem C9_unknown_origin (fd : FlightData) (originKey : String) (destination : Destination)
    (h : ∀ p ∈ fd, airport1Key p ≠ normalizeAirportKey fd originKey ∧
      airport2Key p ≠ normalizeAirportKey fd originKey) :
    findRoutesForDestination fd originKey destination = [] := by
  have h1 : getDirectServicesFromAirport fd originKey = [] :=
    services_foldl_of_unmatched h []
  have h2 : getAirportsServingOrigin fd originKey = [] :=
    services_foldl_of_unmatched h []
  have h3 : servicesCombined fd originKey = [] := by
    unfold servicesCombined combineAirportSets
    rw [h1, h2]
    rfl
  have h4 : findIntersection (servicesCombined fd originKey)
      (servicesCombined fd (destinationKey destination)) = [] := by
    rw [h3]
    rfl
  have h5 : findDirectFlight fd originKey (destinationKey destination) = none := by
    show Option.map (mkFlightService (normalizeAirportKey fd originKey))
      (List.find? (matchesPair (normalizeAirportKey fd originKey)
        (normalizeAirportKey fd (destinationKey destination))) fd) = none
    rw [List.find?_eq_none.mpr]
    · rfl
    · intro p hp hmatch
      unfold matchesPair at hmatch
      rw [decide_eq_true_eq] at hmatch
      rcases hmatch with ⟨hk1, -⟩ | ⟨-, hk2⟩
      · exact (h p hp).1 hk1
      · exact (h p hp).2 hk2
  have h6 : directPartFor fd originKey (destinationKey destination) (destDataOf destination) =
      [] := by
    unfold directPartFor
    rw [h5]
  show rankRoutes
      ((directPartFor fd originKey (destinationKey destination) (destDataOf destination) ++
        (findIntersection (servicesCombined fd originKey)
          (servicesCombined fd (destinationKey destination))).filterMap
          (connectingRouteFor fd originKey (destinationKey destination)
            (destDataOf destination))).map scoreRoute) = []
  rw [h4, h6]
  rfl

/-- Closed instance of `C9_unknown_origin`: the key `Zeta, Zland` matches no
airport of the scenario dataset and the query returns the empty list. -/
theorem C9_unknown_origin_witness :
    (∀ p ∈ fdScenario, airport1Key p ≠ normalizeAirportKey fdScenario "Zeta, Zland" ∧
      airport2Key p ≠ normalizeAirportKey fdScenario "Zeta, Zland") ∧
    findRoutesForDestination fdScenario "Zeta, Zland" destCeta = [] :=
  ⟨by decide, C9_unknown_origin fdScenario "Zeta, Zland" destCeta (by decide)⟩

/-- C3: for every query over any dataset the returned list has at most 30
entries, no direct candidate follows a connecting one, and any two
connecting candidates appear in ascending order of efficiency ratio. -/
theorem C3_ranking_bounded_ordered :
    ∀ (fd : FlightData) (originKey : String) (destination : Destination),
      (findRoutesForDestination fd originKey destination).length ≤ 30 ∧
      List.Pairwise
        (fun a b =>
          (a.type = RouteType.connecting → b.type = RouteType.connecting) ∧
          (a.type = RouteType.connecting → b.type = RouteType.connecting →
            a.efficiencyRatio ≤ b.efficiencyRatio))
        (findRoutesForDestination fd originKey destination) := by
  intro fd originKey destination
  constructor
  · exact rankRoutes_length _
  · show List.Pairwise _ (rankRoutes _)
    apply rankRoutes_pairwise
    · intro a b ha
      constructor
      · intro hconn
        exact RouteType.noConfusion (ha.symm.trans hconn)
      · intro hconn _
        exact RouteType.noConfusion (ha.symm.trans hconn)
    · refine List.Pairwise.imp_of_mem ?_ (List.sorted_insertionSort routeLE _)
      intro a b ha hb hle
      exact ⟨fun _ => rankRoutes_connecting_type hb, fun _ _ => hle⟩

/-- C5: when at least one record pairs two airports, both directions of
`findDirectFlight` succeed, report the same flight duration and the same
airline list, and each result's origin key is the (normalized) first
argument of the call. -/
theorem C5_resolve_symmetry (fd : FlightData) (A B : String)
    (h : ∃ p ∈ fd,
      matchesPair (normalizeAirportKey fd A) (normalizeAirportKey fd B) p = true) :
    ∃ f g, findDirectFlight fd A B = some f ∧ findDirectFlight fd B A = some g ∧
      f.flight_duration_minutes = g.flight_duration_minutes ∧
      f.airlines = g.airlines ∧
      f.origin_city_name ++ ", " ++ f.origin_country = normalizeAirportKey fd A ∧
      g.origin_city_name ++ ", " ++ g.origin_country = normalizeAirportKey fd B := by
  have hsome : (fd.find? (matchesPair (normalizeAirportKey fd A)
      (normalizeAirportKey fd B))).isSome := by
    rw [List.find?_isSome]
    exact h
  rcases Option.isSome_iff_exists.mp hsome with ⟨p, hfind⟩
  have hp : matchesPair (normalizeAirportKey fd A) (normalizeAirportKey fd B) p = true :=
    List.find?_some hfind
  have hp' : matchesPair (normalizeAirportKey fd B) (normalizeAirportKey fd A) p = true :=
    (matchesPair_symm _ _ p) ▸ hp
  have hfind' : fd.find? (matchesPair (normalizeAirportKey fd B)
      (normalizeAirportKey fd A)) = some p :=
    (findDirectFlight_find_symm fd _ _).symm.trans hfind
  refine ⟨mkFlightService (normalizeAirportKey fd A) p,
    mkFlightService (normalizeAirportKey fd B) p, ?_, ?_, rfl, rfl, ?_, ?_⟩
  · show Option.map (mkFlightService (normalizeAirportKey fd A))
      (fd.find? (matchesPair (normalizeAirportKey fd A) (normalizeAirportKey fd B))) = _
    rw [hfind]
    rfl
  · show Option.map (mkFlightService (normalizeAirportKey fd B))
      (fd.find? (matchesPair (normalizeAirportKey fd B) (normalizeAirportKey fd A))) = _
    rw [hfind']
    rfl
  · exact mkFlightService_originKey hp
  · exact mkFlightService_originKey hp'

/-- Closed instance of `C5_resolve_symmetry` at the scenario dataset and the
pair `Alpha, Aland` / `Beta, Bland`. -/
theorem C5_resolve_symmetry_witness :
    (∃ p ∈ fdScenario,
      matchesPair (normalizeAirportKey fdScenario "Alpha, Aland")
        (normalizeAirportKey fdScenario "Beta, Bland") p = true) ∧
    (∃ f g, findDirectFlight fdScenario "Alpha, Aland" "Beta, Bland" = some f ∧
      findDirectFlight fdScenario "Beta, Bland" "Alpha, Aland" = some g ∧
      f.flight_duration_minutes = g.flight_duration_minutes ∧
      f.airlines = g.airlines ∧
      f.origin_city_name ++ ", " ++ f.origin_country =
        normalizeAirportKey fdScenario "Alpha, Aland" ∧
      g.origin_city_name ++ ", " ++ g.origin_country =
        normalizeAirportKey fdScenario "Beta, Bland") :=
  ⟨by decide, C5_resolve_symmetry fdScenario "Alpha, Aland" "Beta, Bland" (by decide)⟩

/-- C6: when exactly one record pairs `A` and `B` and stores `A` on its
airport1 side, the reverse resolution `findDirectFlight(B, A)` returns a leg
whose origin city, country, IATA code and coordinates are the record's
airport2 metadata — `B`'s own stored data, not `A`'s. -/
theorem C6_reverse_orientation (fd : FlightData) (A B : String) (p : AirportPair)
    (hmem : p ∈ fd)
    (h1 : airport1Key p = normalizeAirportKey fd A)
    (h2 : airport2Key p = normalizeAirportKey fd B)
    (hne : normalizeAirportKey fd A ≠ normalizeAirportKey fd B)
    (huniq : ∀ q ∈ fd,
      matchesPair (normalizeAirportKey fd B) (normalizeAirportKey fd A) q = true → q = p) :
    ∃ g, findDirectFlight fd B A = some g ∧
      g.origin_city_name = p.airport2_city_name ∧
      g.origin_country = p.airport2_country ∧
      g.origin_airport_iata = p.airport2_iata ∧
      g.origin_airport_coordinates = p.airport2_coordinates := by
  have hp : matchesPair (normalizeAirportKey fd B) (normalizeAirportKey fd A) p = true := by
    unfold matchesPair
    rw [decide_eq_true_eq]
    exact Or.inr ⟨h1, h2⟩
  have hfind : fd.find? (matchesPair (normalizeAirportKey fd B)
      (normalizeAirportKey fd A)) = some p :=
    find?_unique hmem hp huniq
  refine ⟨mkFlightService (normalizeAirportKey fd B) p, ?_, ?_, ?_, ?_, ?_⟩
  · show Option.map (mkFlightService (normalizeAirportKey fd B))
      (fd.find? (matchesPair (normalizeAirportKey fd B) (normalizeAirportKey fd A))) = _
    rw [hfind]
    rfl
  all_goals
    unfold mkFlightService
    have hno : ¬ airport1Key p = normalizeAirportKey fd B := fun hk => hne (h1 ▸ hk ▸ rfl)
    simp only [if_neg hno]

/-- Closed instance of `C6_reverse_orientation`: in the scenario dataset the
only record pairing Alpha and Beta stores Alpha as airport1, and resolving
from Beta yields Beta's own stored metadata. -/
theorem C6_reverse_orientation_witness :
    (pairAB ∈ fdScenario ∧
      airport1Key pairAB = normalizeAirportKey fdScenario "Alpha, Aland" ∧
      airport2Key pairAB = normalizeAirportKey fdScenario "Beta, Bland" ∧
      normalizeAirportKey fdScenario "Alpha, Aland" ≠
        normalizeAirportKey fdScenario "Beta, Bland") ∧
    (∃ g, findDirectFlight fdScenario "Beta, Bland" "Alpha, Aland" = some g ∧
      g.origin_city_name = pairAB.airport2_city_name ∧
      g.origin_country = pairAB.airport2_country ∧
      g.origin_airport_iata = pairAB.airport2_iata ∧
      g.origin_airport_coordinates = pairAB.airport2_coordinates) :=
  ⟨⟨by decide, by decide, by decide, by decide⟩,
    C6_reverse_orientation fdScenario "Alpha, Aland" "Beta, Bland" pairAB
      (by decide) (by decide) (by decide) (by decide) (by decide)⟩

/-- C1 fails on the code: with two raw entries for the same pair
(Alpha→Beta at 80 minutes first, Beta→Alpha at 100 minutes second), both
resolution directions report duration 80 — the first entry's value, not
`max(80, 100) = 100` — and the airline list is the first entry's alone, not
the union of both entries' airlines. -/
theorem C1_counterexample :
    (findDirectFlight fdDup "Alpha, Aland" "Beta, Bland").map
      (fun f => f.flight_duration_minutes) = some 80 ∧
    (findDirectFlight fdDup "Beta, Bland" "Alpha, Aland").map
      (fun f => f.flight_duration_minutes) = some 80 ∧
    (80 : ℚ) ≠ max 80 100 ∧
    (findDirectFlight fdDup "Alpha, Aland" "Beta, Bland").map
      (fun f => f.airlines.map (fun a => a.airline_name)) = some ["AirX"] ∧
    "AirY" ∉ (["AirX"] : List String) := by
  refine ⟨by decide, by decide, by decide, by decide, by decide⟩

/-- C1 as amended: when duplicate raw entries describe the same pair, both
directions of `findDirectFlight` return the data of the first record in
dataset order that pairs the two airports — its duration and its airline
list unchanged, with no max-of-durations and no merge of airline lists. -/
theorem C1_first_record (fd : FlightData) (A B : String) (p : AirportPair)
    (hfind : fd.find? (matchesPair (normalizeAirportKey fd A)
      (normalizeAirportKey fd B)) = some p) :
    (findDirectFlight fd A B).map (fun f => f.flight_duration_minutes) =
      some p.flight_duration_minutes ∧
    (findDirectFlight fd B A).map (fun f => f.flight_duration_minutes) =
      some p.flight_duration_minutes ∧
    (findDirectFlight fd A B).map (fun f => f.airlines) = some p.airlines ∧
    (findDirectFlight fd B A).map (fun f => f.airlines) = some p.airlines := by
  have hfind' : fd.find? (matchesPair (normalizeAirportKey fd B)
      (normalizeAirportKey fd A)) = some p :=
    (findDirectFlight_find_symm fd _ _).symm.trans hfind
  have hAB : findDirectFlight fd A B =
      some (mkFlightService (normalizeAirportKey fd A) p) := by
    show Option.map (mkFlightService (normalizeAirportKey fd A))
      (fd.find? (matchesPair (normalizeAirportKey fd A) (normalizeAirportKey fd B))) = _
    rw [hfind]
    rfl
  have hBA : findDirectFlight fd B A =
      some (mkFlightService (normalizeAirportKey fd B) p) := by
    show Option.map (mkFlightService (normalizeAirportKey fd B))
      (fd.find? (matchesPair (normalizeAirportKey fd B) (normalizeAirportKey fd A))) = _
    rw [hfind']
    rfl
  rw [hAB, hBA]
  exact ⟨rfl, rfl, rfl, rfl⟩

/-- Closed instance of `C1_first_record` at the duplicate-entry dataset: the
first matching record is the 80-minute Alpha→Beta entry and both directions
report its data. -/
theorem C1_first_record_witness :
    fdDup.find? (matchesPair (normalizeAirportKey fdDup "Alpha, Aland")
      (normalizeAirportKey fdDup "Beta, Bland")) = some dupFirst ∧
    ((findDirectFlight fdDup "Alpha, Aland" "Beta, Bland").map
      (fun f => f.flight_duration_minutes) = some dupFirst.flight_duration_minutes ∧
    (findDirectFlight fdDup "Beta, Bland" "Alpha, Aland").map
      (fun f => f.flight_duration_minutes) = some dupFirst.flight_duration_minutes ∧
    (findDirectFlight fdDup "Alpha, Aland" "Beta, Bland").map
      (fun f => f.airlines) = some dupFirst.airlines ∧
    (findDirectFlight fdDup "Beta, Bland" "Alpha, Aland").map
      (fun f => f.airlines) = some dupFirst.airlines) :=
  ⟨by decide,
    C1_first_record fdDup "Alpha, Aland" "Beta, Bland" dupFirst (by decide)⟩

/-- C2: on the two-leg scenario dataset the query from Alpha to the Ceta
destination returns exactly one candidate — a connecting route via Beta with
total duration 210, volume factor 1 and efficiency ratio 210. -/
theorem C2_two_leg_scenario :
    (findRoutesForDestination fdScenario "Alpha, Aland" destCeta).length = 1 ∧
    (findRoutesForDestination fdScenario "Alpha, Aland" destCeta).map
      (fun r => r.type) = [RouteType.connecting] ∧
    (findRoutesForDestination fdScenario "Alpha, Aland" destCeta).map
      (fun r => r.transferAirport) = [some "Beta, Bland"] ∧
    (findRoutesForDestination fdScenario "Alpha, Aland" destCeta).map
      (fun r => r.via) = [some "Beta (BBB)"] ∧
    (findRoutesForDestination fdScenario "Alpha, Aland" destCeta).map
      (fun r => r.duration) = [210] ∧
    (findRoutesForDestination fdScenario "Alpha, Aland" destCeta).map
      (fun r => r.volumeFactor) = [1] ∧
    (findRoutesForDestination fdScenario "Alpha, Aland" destCeta).map
      (fun r => r.efficiencyRatio) = [210] := by
  refine ⟨by decide, by decide, by decide, by decide, by decide, by decide, by decide⟩

/-- The direct part of a query holds at most one route, so any pairwise
relation holds on it. -/
theorem directPartFor_pairwise {fd : FlightData} {originKey destKey : String}
    {destData : DestData} {S : Route → Route → Prop} :
    List.Pairwise S (directPartFor fd originKey destKey destData) := by
  unfold directPartFor
  rcases findDirectFlight fd originKey destKey with - | f <;> simp

/-- C7 fails on the code: the twin dataset has two distinct transfer
airports (`Paris, France` and `Paris, Spain`) whose connecting candidates
share the via label `Paris (PPP)` and the total duration 100, yet
`findRoutesForDestination` emits both candidates, not just the first. -/
theorem C7_counterexample :
    (findRoutesForDestination fdTwin "Ori, Oland" destDes).length = 2 ∧
    (findRoutesForDestination fdTwin "Ori, Oland" destDes).map (fun r => r.type) =
      [RouteType.connecting, RouteType.connecting] ∧
    (findRoutesForDestination fdTwin "Ori, Oland" destDes).map (fun r => r.via) =
      [some "Paris (PPP)", some "Paris (PPP)"] ∧
    (findRoutesForDestination fdTwin "Ori, Oland" destDes).map (fun r => r.duration) =
      [100, 100] ∧
    (findRoutesForDestination fdTwin "Ori, Oland" destDes).map (fun r => r.transferAirport) =
      [some "Paris, France", some "Paris, Spain"] := by
  refine ⟨by decide, by decide, by decide, by decide, by decide⟩

/-- C7 as amended: `findRoutesForDestination` performs no deduplication by
(via label, total duration).  It emits at most one connecting candidate per
transfer airport key — the transfer airport keys of the connecting
candidates are pairwise distinct — and candidates from distinct transfer
airports are all kept even when their via labels and total durations
coincide, as the twin dataset shows. -/
theorem C7_one_candidate_per_transfer :
    (∀ (fd : FlightData) (originKey : String) (destination : Destination),
      List.Pairwise
        (fun a b => a.type = RouteType.connecting → b.type = RouteType.connecting →
          a.transferAirport ≠ b.transferAirport)
        (findRoutesForDestination fd originKey destination)) ∧
    (findRoutesForDestination fdTwin "Ori, Oland" destDes).map
      (fun r => (r.via, r.duration, r.transferAirport)) =
      [(some "Paris (PPP)", (100 : ℚ), some "Paris, France"),
       (some "Paris (PPP)", (100 : ℚ), some "Paris, Spain")] := by
  constructor
  · intro fd originKey destination
    show List.Pairwise _ (rankRoutes _)
    apply rankRoutes_pairwise
    · intro a b ha hconn
      exact absurd (ha.symm.trans hconn) (fun hh => RouteType.noConfusion hh)
    · have hroutes : List.Pairwise
          (fun a b => a.type = RouteType.connecting → b.type = RouteType.connecting →
            a.transferAirport ≠ b.transferAirport)
          (directPartFor fd originKey (destinationKey destination) (destDataOf destination) ++
            (findIntersection (servicesCombined fd originKey)
              (servicesCombined fd (destinationKey destination))).filterMap
              (connectingRouteFor fd originKey (destinationKey destination)
                (destDataOf destination))) := by
        rw [List.pairwise_append]
        refine ⟨directPartFor_pairwise, ?_, ?_⟩
        · rw [List.pairwise_filterMap]
          have hnodup : (findIntersection (servicesCombined fd originKey)
              (servicesCombined fd (destinationKey destination))).Nodup :=
            findIntersection_nodup
          refine hnodup.imp ?_
          intro t t' hne r hr r' hr'
          obtain ⟨-, htr, -, -⟩ := connectingRouteFor_some (Option.mem_def.mp hr)
          obtain ⟨-, htr', -, -⟩ := connectingRouteFor_some (Option.mem_def.mp hr')
          intro _ _
          rw [htr, htr']
          intro heq
          exact hne (Option.some.inj heq)
        · intro a ha b _
          have had : a.type = RouteType.direct := directPartFor_type ha
          exact fun hconn _ => absurd (had.symm.trans hconn) (fun hh => RouteType.noConfusion hh)
      have hscored : List.Pairwise
          (fun a b => a.type = RouteType.connecting → b.type = RouteType.connecting →
            a.transferAirport ≠ b.transferAirport)
          ((directPartFor fd originKey (destinationKey destination) (destDataOf destination) ++
            (findIntersection (servicesCombined fd originKey)
              (servicesCombined fd (destinationKey destination))).filterMap
              (connectingRouteFor fd originKey (destinationKey destination)
                (destDataOf destination))).map scoreRoute) := by
        rw [List.pairwise_map]
        exact hroutes.imp (fun h => h)
      have hperm := List.perm_insertionSort routeLE
        (((directPartFor fd originKey (destinationKey destination) (destDataOf destination) ++
          (findIntersection (servicesCombined fd originKey)
            (servicesCombined fd (destinationKey destination))).filterMap
            (connectingRouteFor fd originKey (destinationKey destination)
              (destDataOf destination))).map scoreRoute).filter
          (fun r => decide (r.type = RouteType.connecting)))
      refine (hperm.pairwise_iff ?_).mpr (hscored.filter _)
      intro x y h hyc hxc
      exact (h hxc hyc).symm
  · decide

/-- C8: over a dataset with no self-pair record, every connecting candidate
returned by `findRoutesForDestination` carries a transfer airport key that
differs from the queried origin key and destination key and lies in the
intersection of the two combined reachable sets. -/
theorem C8_transfer_exclusion (fd : FlightData) (originKey : String) (destination : Destination)
    (_hs : ∀ p ∈ fd, airport1Key p ≠ airport2Key p)
    (r : Route) (hr : r ∈ findRoutesForDestination fd originKey destination)
    (hconn : r.type = RouteType.connecting) :
    ∃ t, r.transferAirport = some t ∧ t ≠ originKey ∧ t ≠ destinationKey destination ∧
      t ∈ findIntersection (servicesCombined fd originKey)
        (servicesCombined fd (destinationKey destination)) := by
  have hr2 : r ∈ rankRoutes
      ((directPartFor fd originKey (destinationKey destination) (destDataOf destination) ++
        (findIntersection (servicesCombined fd originKey)
          (servicesCombined fd (destinationKey destination))).filterMap
          (connectingRouteFor fd originKey (destinationKey destination)
            (destDataOf destination))).map scoreRoute) := hr
  have hmem := mem_rankRoutes hr2
  rcases List.mem_map.mp hmem with ⟨r0, hr0mem, rfl⟩
  rcases List.mem_append.mp hr0mem with hd | hc
  · have had : r0.type = RouteType.direct := directPartFor_type hd
    rw [scoreRoute_type] at hconn
    exact absurd (had.symm.trans hconn) (fun hh => RouteType.noConfusion hh)
  · rcases List.mem_filterMap.mp hc with ⟨t, htmem, hsome⟩
    obtain ⟨-, htr, hne1, hne2⟩ := connectingRouteFor_some hsome
    refine ⟨t, ?_, hne1, hne2, htmem⟩
    rw [scoreRoute_transferAirport]
    exact htr

/-- Closed instance of `C8_transfer_exclusion`: the single route of the
two-leg scenario is connecting, and its transfer airport `Beta, Bland`
differs from both endpoints and lies in both reachable sets. -/
theorem C8_transfer_exclusion_witness :
    (∀ p ∈ fdScenario, airport1Key p ≠ airport2Key p) ∧
    (∃ t, ((findRoutesForDestination fdScenario "Alpha, Aland" destCeta).headD
        dummyRoute).transferAirport = some t ∧
      t ≠ "Alpha, Aland" ∧ t ≠ destinationKey destCeta ∧
      t ∈ findIntersection (servicesCombined fdScenario "Alpha, Aland")
        (servicesCombined fdScenario (destinationKey destCeta))) :=
  ⟨by decide,
    C8_transfer_exclusion fdScenario "Alpha, Aland" destCeta (by decide)
      ((findRoutesForDestination fdScenario "Alpha, Aland" destCeta).headD dummyRoute)
      (by decide) (by decide)⟩

end AffiliateMap

